import Mathlib

/-!
Verification of the natural-language specification of the NPM dataplane
orchestrator (`npm/pkg/dataplane/dataplane.go`) against a shallow embedding
of the source.  External collaborators that are out of scope of the given
sources (the IPSetManager's set/reference storage, the PolicyManager's
policy cache, the update-pod queue, the platform flag, endpoint resolution)
are embedded as explicit state plus boolean outcome oracles, following the
interface contracts in the spec (sections 4 and 6).  Backend effects that
only succeed or fail (ApplyIPSets, ReconcileDirtyNetPols, updatePod,
refreshPodEndpoints, getEndpointsToApplyPolicy) are driven by an `Oracle`
record so that theorems quantify over every outcome pattern.
-/

namespace NpmDataplane

/-! Concrete fixtures used by the closed evaluation theorems and witnesses. -/

/-- Reference types partitioning set reference counts (ipsets.SelectorType /
ipsets.NetPolType). -/
inductive RefType
  | selector
  | netPol
deriving DecidableEq, Repr

/-- Set kinds (ipsets.HashSet / ipsets.ListSet). -/
inductive SetKind
  | hashSet
  | listSet
deriving DecidableEq, Repr

/-- Modelled from the spec: the set types the dataplane code branches on
(plain address sets, CIDR-block sets, nested-label list sets, namespace list
sets).  The ipsets package defining the full enum is not part of the given
sources; only the cases inspected by `dataplane.go` are distinguished. -/
inductive SetType
  | keyValueLabelOfPod
  | nameSpaceType
  | nestedLabelOfPod
  | cidrBlocks
deriving DecidableEq, Repr

/-- Modelled from the spec: `GetSetKind` — list-of-sets types are ListSet,
address types are HashSet. -/
def SetType.kind : SetType → SetKind
  | .keyValueLabelOfPod => .hashSet
  | .cidrBlocks => .hashSet
  | .nameSpaceType => .listSet
  | .nestedLabelOfPod => .listSet

/-- ipsets.IPSetMetadata: identity of a set (name and type).  The prefix-name
computation of the ipsets package is not in the given sources; names are used
verbatim as the prefixed names. -/
structure IPSetMetadata where
  name : String
  typ : SetType
deriving DecidableEq, Repr

/-- ipsets.TranslatedIPSet: metadata plus the literal members contributed by
one policy's translation. -/
structure TranslatedIPSet where
  name : String
  typ : SetType
  members : List String
deriving DecidableEq, Repr

/-- One set in the IPSetManager cache: its name, its references partitioned by
reference type, and its members. -/
structure SetEntry where
  name : String
  refs : List (String × RefType)
  members : List String
deriving DecidableEq, Repr

/-- Modelled from the spec: the IPSetManager's in-memory set cache (the ipsets
package is not part of the given sources).  One entry per set name. -/
abbrev IPSetState := List SetEntry

/-- Does the cache hold a reference `r` of type `rt` on set `nm`? -/
def hasRef (ips : IPSetState) (nm r : String) (rt : RefType) : Bool :=
  ips.any (fun e => decide (e.name = nm) && decide ((r, rt) ∈ e.refs))

/-- Does a set named `nm` exist in the cache? -/
def hasSet (ips : IPSetState) (nm : String) : Bool :=
  ips.any (fun e => decide (e.name = nm))

/-- Add a reference to a reference list, keeping it duplicate-free (Go map
semantics). -/
def insertRef (rs : List (String × RefType)) (r : String) (rt : RefType) :
    List (String × RefType) :=
  if (r, rt) ∈ rs then rs else (r, rt) :: rs

/-- Modelled from the spec: IPSetManager.AddReference — fails (returns `none`)
when the set does not exist, as assumed by the `continue` branch of
`deleteIPSetsAndReferences`; otherwise records the reference. -/
def addReference (ips : IPSetState) (nm r : String) (rt : RefType) :
    Option IPSetState :=
  match ips with
  | [] => none
  | e :: rest =>
    if e.name = nm then some ({ e with refs := insertRef e.refs r rt } :: rest)
    else (addReference rest nm r rt).map (e :: ·)

/-- Modelled from the spec: IPSetManager.DeleteReference — returns `none`
(ErrSetDoesNotExist) when the set does not exist, which the callers tolerate;
otherwise drops the reference. -/
def deleteReference (ips : IPSetState) (nm r : String) (rt : RefType) :
    Option IPSetState :=
  match ips with
  | [] => none
  | e :: rest =>
    if e.name = nm then
      some ({ e with refs := e.refs.filter (fun x => decide (x ≠ (r, rt))) } :: rest)
    else (deleteReference rest nm r rt).map (e :: ·)

/-- Modelled from the spec: IPSetManager.CreateIPSets — adds the set with no
references and no members when absent, otherwise leaves the cache unchanged. -/
def createIPSet (ips : IPSetState) (m : IPSetMetadata) : IPSetState :=
  if hasSet ips m.name then ips else ips ++ [{ name := m.name, refs := [], members := [] }]

/-- Rewrite the members of the set named `nm` with `f`, leaving everything
else (names and references in particular) intact. -/
def mapMembersAt (ips : IPSetState) (nm : String) (f : List String → List String) :
    IPSetState :=
  ips.map (fun e => if e.name = nm then { e with members := f e.members } else e)

/-- Duplicate-free member insertion. -/
def insertMember (ms : List String) (x : String) : List String :=
  if x ∈ ms then ms else ms ++ [x]

/-- Member removal. -/
def removeMember (ms : List String) (x : String) : List String :=
  ms.filter (fun y => decide (y ≠ x))

/-- Errors surfaced by the modelled IPSetManager. -/
inductive MgrErr
  | setDoesNotExist
  | updateFailed
deriving DecidableEq, Repr

/-- Errors surfaced by the orchestrator, one constructor per wrapping site in
`dataplane.go` (`nilPanic` stands for the Go runtime panic raised by a nil
pointer dereference). -/
inductive DPErr
  | nilPanic
  | applyIPSets
  | removePolicyWrapped
  | addPolicyWrapped
  | endpointResolveWrapped
  | addSelectorReference
  | addNetPolReference
  | deleteSelectorReference
  | deleteNetPolReference
  | reconcileNetPols
  | wrappedIPSet (inner : MgrErr)
deriving DecidableEq, Repr

/-- Ghost trace of the externally visible backend calls and metric emissions
made by the orchestrator. -/
inductive Event
  | applyCommit
  | applyFail
  | refreshCall
  | metricErr
  | podUpdated (podKey : String)
  | updateFailed (podKey : String)
  | addRefOk (setName ref : String) (rt : RefType)
  | addRefFail (setName ref : String) (rt : RefType)
  | delRefCall (setName ref : String) (rt : RefType)
  | memberOp
  | resolveCall
  | installCall
deriving DecidableEq, Repr

/-- Count occurrences of one event in a trace. -/
def countE (ev : Event) (l : List Event) : Nat :=
  (l.filter (fun e => decide (e = ev))).length

/-- npmEndpoint: the endpoint-cache entry for one pod address — the endpoint
id and the set of policy keys currently referencing the endpoint. -/
structure NpmEndpoint where
  id : String
  netPolReference : List String
deriving DecidableEq, Repr

/-- Modelled from the spec: one entry of the update-pod queue — a
deduplicated per-pod-key record of accumulated sets-to-add and
sets-to-remove (the updatePodCache implementation is not part of the given
sources). -/
structure UpdPod where
  podKey : String
  podIP : String
  toAdd : List String
  toRemove : List String
deriving DecidableEq, Repr

/-- PodMetadata supplied by callers of the set-mutation API. -/
structure PodMetadata where
  podIP : String
  podKey : String
  nodeName : String
deriving DecidableEq, Repr

/-- policies.NPMNetworkPolicy as used by `dataplane.go`: the policy key, the
selector sets (flattened, standing for AllPodSelectorIPSets), the rule sets,
and the pod-address → endpoint-id bindings observed at apply time. -/
structure NPMNetworkPolicy where
  PolicyKey : String
  podSelectorIPSets : List TranslatedIPSet
  RuleIPSets : List TranslatedIPSet
  PodEndpoints : List (String × String)
deriving DecidableEq, Repr

/-- Modelled from the spec: `AllPodSelectorIPSets` of the policies package
(not in the given sources) — the policy's endpoint-selector sets. -/
def AllPodSelectorIPSets (p : NPMNetworkPolicy) : List TranslatedIPSet :=
  p.podSelectorIPSets

/-- The construction-time configuration surface (dataplane.Config). -/
structure GoConfig where
  ApplyInBackground : Bool
  ApplyMaxBatches : Int
  ApplyInterval : Int
  IPTablesInBackground : Bool
  IPTablesMaxBatches : Int
  IPTablesInterval : Int
deriving DecidableEq, Repr

/-- NewDataPlane failure modes. -/
inductive NewErr
  | invalidApplyConfig
  | bootupFailed
deriving DecidableEq, Repr

/-- The immutable part of the DataPlane struct after construction: platform,
effective background flags, batch maxima and intervals, node name. -/
structure DataPlaneStatic where
  isWindows : Bool
  applyInBackground : Bool
  iptablesInBackground : Bool
  applyMaxBatches : Int
  applyInterval : Int
  iptablesMaxBatches : Int
  iptablesInterval : Int
  nodeName : String
deriving DecidableEq, Repr

/-- Outcome oracle for the external backend calls: each field fixes whether
the corresponding call succeeds; `updatePodOutcomes` gives the outcome of
each successive updatePod call during a queue drain (calls beyond the listed
outcomes succeed). -/
structure Oracle where
  applyIPSetsOk : Bool
  reconcileNetPolsOk : Bool
  policyMgrRemoveOk : Bool
  policyMgrAddOk : Bool
  endpointsResolveOk : Bool
  refreshOk : Bool
  addToSetsOk : Bool
  removeFromSetsOk : Bool
  addToListsOk : Bool
  removeFromListOk : Bool
  updatePodOutcomes : List Bool
deriving DecidableEq, Repr

/-- The mutable state composed by the DataPlane: the IPSetManager cache, the
PolicyManager cache, the endpoint cache, the update-pod queue, the two batch
counters, the pending temporary-reference cleanup table, and the ghost event
trace. -/
structure DPState where
  ipsetState : IPSetState
  policies : List (String × NPMNetworkPolicy)
  endpointCache : List (String × NpmEndpoint)
  updatePodQueue : List UpdPod
  applyNumBatches : Int
  netPolNumBatches : Int
  toDeleteNetPolReferences : List (String × List String)
  log : List Event
deriving DecidableEq, Repr

/-- Association-list lookup (Go map read). -/
def lookupA {α : Type} : List (String × α) → String → Option α
  | [], _ => none
  | (k, v) :: rest, key => if k = key then some v else lookupA rest key

/-- Association-list key removal (Go map delete). -/
def removeA {α : Type} (l : List (String × α)) (key : String) : List (String × α) :=
  l.filter (fun e => decide (e.1 ≠ key))

/-- Append a value to the list stored at `k` (Go
`m[k] = append(m[k], v)`). -/
def tableAppend (tbl : List (String × List String)) (k v : String) :
    List (String × List String) :=
  if tbl.any (fun e => decide (e.1 = k)) then
    tbl.map (fun e => if e.1 = k then (e.1, e.2 ++ [v]) else e)
  else tbl ++ [(k, [v])]

/-- Modelled from the spec: `shouldUpdatePod` (platform file not in the given
sources) — true exactly on the deferred-apply (Windows) backend. -/
def shouldUpdatePod (dp : DataPlaneStatic) : Bool :=
  dp.isWindows

/-- NewDataPlane: derives the effective background flags (Linux never applies
sets in background, Windows never runs iptables in background), validates the
apply-batching configuration, then boots the dataplane (outcome `bootOk`). -/
def NewDataPlane (isWindows : Bool) (nodeName : String) (cfg : GoConfig)
    (bootOk : Bool) : Except NewErr DataPlaneStatic :=
  if (cfg.ApplyInBackground && isWindows)
      && (decide (cfg.ApplyMaxBatches ≤ 0) || decide (cfg.ApplyInterval = 0)) then
    Except.error NewErr.invalidApplyConfig
  else if !bootOk then
    Except.error NewErr.bootupFailed
  else
    Except.ok
      { isWindows := isWindows
        applyInBackground := cfg.ApplyInBackground && isWindows
        iptablesInBackground := cfg.IPTablesInBackground && !isWindows
        applyMaxBatches := cfg.ApplyMaxBatches
        applyInterval := cfg.ApplyInterval
        iptablesMaxBatches := cfg.IPTablesMaxBatches
        iptablesInterval := cfg.IPTablesInterval
        nodeName := nodeName }

/-- Modelled from the spec: IPSetManager.AddToSets — on success records the
member in each named set; on failure reports an update error with the cache
unchanged. -/
def mgrAddToSets (ok : Bool) (ips : IPSetState) (names : List String)
    (ip : String) : Except MgrErr IPSetState :=
  if ok then
    Except.ok (names.foldl (fun acc nm => mapMembersAt acc nm (fun ms => insertMember ms ip)) ips)
  else Except.error MgrErr.updateFailed

/-- Modelled from the spec: IPSetManager.RemoveFromSets — dual of
`mgrAddToSets`. -/
def mgrRemoveFromSets (ok : Bool) (ips : IPSetState) (names : List String)
    (ip : String) : Except MgrErr IPSetState :=
  if ok then
    Except.ok (names.foldl (fun acc nm => mapMembersAt acc nm (fun ms => removeMember ms ip)) ips)
  else Except.error MgrErr.updateFailed

/-- Modelled from the spec: IPSetManager.AddToLists — records member set
names in each named list set. -/
def mgrAddToLists (ok : Bool) (ips : IPSetState) (listNames : List String)
    (memberNames : List String) : Except MgrErr IPSetState :=
  if ok then
    Except.ok (listNames.foldl
      (fun acc nm => mapMembersAt acc nm (fun ms => memberNames.foldl insertMember ms)) ips)
  else Except.error MgrErr.updateFailed

/-- Modelled from the spec: IPSetManager.RemoveFromList. -/
def mgrRemoveFromList (ok : Bool) (ips : IPSetState) (listName : String)
    (memberNames : List String) : Except MgrErr IPSetState :=
  if ok then
    Except.ok (mapMembersAt ips listName
      (fun ms => memberNames.foldl removeMember ms))
  else Except.error MgrErr.updateFailed

/-- Modelled from the spec: updatePodCache enqueue — reuse the existing entry
for the pod key, otherwise append a fresh empty delta at the back. -/
def enqueuePod (q : List UpdPod) (pm : PodMetadata) : List UpdPod :=
  if q.any (fun u => decide (u.podKey = pm.podKey)) then q
  else q ++ [{ podKey := pm.podKey, podIP := pm.podIP, toAdd := [], toRemove := [] }]

/-- Modelled from the spec: updateIPSetsToAdd — merge the set names into the
pod's sets-to-add and drop them from its sets-to-remove. -/
def mergeAdd (q : List UpdPod) (key : String) (names : List String) : List UpdPod :=
  q.map (fun u =>
    if u.podKey = key then
      { u with toAdd := names.foldl insertMember u.toAdd
               toRemove := names.foldl removeMember u.toRemove }
    else u)

/-- Modelled from the spec: updateIPSetsToRemove — dual of `mergeAdd`. -/
def mergeRemove (q : List UpdPod) (key : String) (names : List String) : List UpdPod :=
  q.map (fun u =>
    if u.podKey = key then
      { u with toRemove := names.foldl insertMember u.toRemove
               toAdd := names.foldl removeMember u.toAdd }
    else u)

/-- DataPlane.AddToSets: update the IPSetManager cache first (wrapping any
error), then — only when the deferred-apply backend is active and the pod is
local — merge the delta into the update-pod queue. -/
def AddToSetsDP (dp : DataPlaneStatic) (or_ : Oracle) (st : DPState)
    (setNames : List IPSetMetadata) (pod : PodMetadata) : DPState × Option DPErr :=
  match mgrAddToSets or_.addToSetsOk st.ipsetState (setNames.map (·.name)) pod.podIP with
  | Except.error e => (st, some (DPErr.wrappedIPSet e))
  | Except.ok ips =>
    let st1 := { st with ipsetState := ips }
    if shouldUpdatePod dp && decide (pod.nodeName = dp.nodeName) then
      ({ st1 with updatePodQueue :=
          mergeAdd (enqueuePod st1.updatePodQueue pod) pod.podKey (setNames.map (·.name)) }, none)
    else (st1, none)

/-- DataPlane.RemoveFromSets: dual of `AddToSetsDP`. -/
def RemoveFromSetsDP (dp : DataPlaneStatic) (or_ : Oracle) (st : DPState)
    (setNames : List IPSetMetadata) (pod : PodMetadata) : DPState × Option DPErr :=
  match mgrRemoveFromSets or_.removeFromSetsOk st.ipsetState (setNames.map (·.name)) pod.podIP with
  | Except.error e => (st, some (DPErr.wrappedIPSet e))
  | Except.ok ips =>
    let st1 := { st with ipsetState := ips }
    if shouldUpdatePod dp && decide (pod.nodeName = dp.nodeName) then
      ({ st1 with updatePodQueue :=
          mergeRemove (enqueuePod st1.updatePodQueue pod) pod.podKey (setNames.map (·.name)) }, none)
    else (st1, none)

/-- The queue-drain loop of `applyDataPlaneNow`: dequeue from the front; a
successful updatePod drops the pod, a failed one logs an error metric and
requeues the pod at the back, and the loop moves on.  One oracle outcome is
consumed per call; calls beyond the oracle trace succeed. -/
def drainPods : List UpdPod → List Bool → List UpdPod × List Event
  | [], _ => ([], [])
  | p :: rest, [] =>
    let r := drainPods rest []
    (r.1, Event.podUpdated p.podKey :: r.2)
  | p :: rest, true :: os =>
    let r := drainPods rest os
    (r.1, Event.podUpdated p.podKey :: r.2)
  | p :: rest, false :: os =>
    let r := drainPods (rest ++ [p]) os
    (r.1, Event.updateFailed p.podKey :: r.2)
termination_by q os => os.length + q.length
decreasing_by
  all_goals simp [List.length_append]
  all_goals omega

/-- applyDataPlaneNow: commit pending set changes (wrapping a failure), then
reset the apply counter when batching is active, then — on the deferred
backend with a non-empty queue — refresh endpoints (a refresh failure is a
metric, not an error) and drain the queue. -/
def applyDataPlaneNow (dp : DataPlaneStatic) (or_ : Oracle) (st : DPState) :
    DPState × Option DPErr :=
  if !or_.applyIPSetsOk then
    ({ st with log := st.log ++ [Event.applyFail] }, some DPErr.applyIPSets)
  else
    let st1 := if dp.applyInBackground then { st with applyNumBatches := 0 } else st
    if shouldUpdatePod dp then
      if st1.updatePodQueue.isEmpty then
        ({ st1 with log := st1.log ++ [Event.applyCommit] }, none)
      else if !or_.refreshOk then
        ({ st1 with log := st1.log ++ [Event.applyCommit, Event.refreshCall, Event.metricErr] }, none)
      else
        let r := drainPods st1.updatePodQueue or_.updatePodOutcomes
        ({ st1 with updatePodQueue := r.1
                    log := st1.log ++ (Event.applyCommit :: Event.refreshCall :: r.2) }, none)
    else ({ st1 with log := st1.log ++ [Event.applyCommit] }, none)

/-- incrementBatchAndApplyIfNeeded: bump the apply counter and flush once it
reaches the configured maximum. -/
def incrementBatchAndApplyIfNeeded (dp : DataPlaneStatic) (or_ : Oracle)
    (st : DPState) : DPState × Option DPErr :=
  let st1 := { st with applyNumBatches := st.applyNumBatches + 1 }
  if st1.applyNumBatches ≥ dp.applyMaxBatches then applyDataPlaneNow dp or_ st1
  else (st1, none)

/-- ApplyDataPlane: defer into the apply batch in background mode, apply
immediately otherwise. -/
def ApplyDataPlane (dp : DataPlaneStatic) (or_ : Oracle) (st : DPState) :
    DPState × Option DPErr :=
  if dp.applyInBackground then incrementBatchAndApplyIfNeeded dp or_ st
  else applyDataPlaneNow dp or_ st

/-- Iterate `ApplyDataPlane` k times, keeping the state. -/
def applyCalls (dp : DataPlaneStatic) (or_ : Oracle) : Nat → DPState → DPState
  | 0, st => st
  | k + 1, st => (ApplyDataPlane dp or_ (applyCalls dp or_ k st)).1

/-- The error constructor used when deleting references of the given type
fails (npmerrors.DeleteNetPolReference / DeleteSelectorReference). -/
def delRefErr (rt : RefType) : DPErr :=
  match rt with
  | .netPol => DPErr.deleteNetPolReference
  | .selector => DPErr.deleteSelectorReference

/-- The error constructor used when adding references of the given type fails
(npmerrors.AddNetPolReference / AddSelectorReference). -/
def addRefErrC (rt : RefType) : DPErr :=
  match rt with
  | .netPol => DPErr.addNetPolReference
  | .selector => DPErr.addSelectorReference

/-- Per-member AddToSets loop for a CIDR-block set. -/
def cidrAddLoop (ok : Bool) (nm : String) :
    List String → IPSetState → IPSetState × Option MgrErr
  | [], ips => (ips, none)
  | m :: rest, ips =>
    match mgrAddToSets ok ips [nm] m with
    | Except.error e => (ips, some e)
    | Except.ok ips1 => cidrAddLoop ok nm rest ips1

/-- Per-member RemoveFromSets loop for a CIDR-block set. -/
def cidrRemoveLoop (ok : Bool) (nm : String) :
    List String → IPSetState → IPSetState × Option MgrErr
  | [], ips => (ips, none)
  | m :: rest, ips =>
    match mgrRemoveFromSets ok ips [nm] m with
    | Except.error e => (ips, some e)
    | Except.ok ips1 => cidrRemoveLoop ok nm rest ips1

/-- DeleteReference with the caller's tolerance for a nonexistent set: the
error is logged and the cache kept as is. -/
def delRefOrKeep (ips : IPSetState) (nm r : String) (rt : RefType) : IPSetState :=
  match deleteReference ips nm r rt with
  | none => ips
  | some x => x

/-- First loop of `deleteIPSetsAndReferences`: for each set, in batched
(iptables-in-background) mode first add the temporary reference
`"TMP" ++ p` (skipping the rest of the iteration when the set does not
exist), record the pending cleanup entry under the set's name, and only then
delete the policy's real reference; in unbatched mode just delete the real
reference.  A delete on a nonexistent set is logged and ignored. -/
def delRefsLoop (batched : Bool) (p : String) (rt : RefType) :
    List TranslatedIPSet → IPSetState → List (String × List String) →
    IPSetState × List (String × List String) × List Event
  | [], ips, tbl => (ips, tbl, [])
  | set :: rest, ips, tbl =>
    if batched then
      match addReference ips set.name ("TMP" ++ p) rt with
      | none =>
        let r := delRefsLoop batched p rt rest ips tbl
        (r.1, r.2.1, Event.addRefFail set.name ("TMP" ++ p) rt :: r.2.2)
      | some ips1 =>
        let r := delRefsLoop batched p rt rest (delRefOrKeep ips1 set.name p rt)
          (tableAppend tbl set.name p)
        (r.1, r.2.1,
          Event.addRefOk set.name ("TMP" ++ p) rt :: Event.delRefCall set.name p rt :: r.2.2)
    else
      let r := delRefsLoop batched p rt rest (delRefOrKeep ips set.name p rt) tbl
      (r.1, r.2.1, Event.delRefCall set.name p rt :: r.2.2)

/-- Second loop of `deleteIPSetsAndReferences`: remove the translated members
— every member of a CIDR-block set via RemoveFromSets, and the members of a
list-kind set via RemoveFromList — aborting with a wrapped error on the first
failure. -/
def removeMembersLoop (or_ : Oracle) (rt : RefType) :
    List TranslatedIPSet → IPSetState → IPSetState × Option DPErr
  | [], ips => (ips, none)
  | set :: rest, ips =>
    if set.typ = SetType.cidrBlocks then
      match cidrRemoveLoop or_.removeFromSetsOk set.name set.members ips with
      | (ips1, some _) => (ips1, some (delRefErr rt))
      | (ips1, none) => removeMembersLoop or_ rt rest ips1
    else if SetType.kind set.typ = SetKind.listSet ∧ set.members ≠ [] then
      match mgrRemoveFromList or_.removeFromListOk ips set.name set.members with
      | Except.error _ => (ips, some (delRefErr rt))
      | Except.ok ips1 => removeMembersLoop or_ rt rest ips1
    else
      removeMembersLoop or_ rt rest ips

/-- deleteIPSetsAndReferences: the temporary-reference first loop followed by
the member-removal loop, returning the new set cache, the new pending-cleanup
table, the emitted events and the error, if any. -/
def deleteIPSetsAndReferences (batched : Bool) (or_ : Oracle)
    (sets : List TranslatedIPSet) (p : String) (rt : RefType)
    (ips : IPSetState) (tbl : List (String × List String)) :
    IPSetState × List (String × List String) × List Event × Option DPErr :=
  let r1 := delRefsLoop batched p rt sets ips tbl
  let r2 := removeMembersLoop or_ rt sets r1.1
  (r2.1, r1.2.1, r1.2.2, r2.2)

/-- First loop of `createIPSetsAndReferences`: create each set and add the
policy's reference, aborting with a wrapped error on the first failure. -/
def createRefsLoop (p : String) (rt : RefType) :
    List TranslatedIPSet → IPSetState → IPSetState × List Event × Option DPErr
  | [], ips => (ips, [], none)
  | set :: rest, ips =>
    let ips0 := createIPSet ips { name := set.name, typ := set.typ }
    match addReference ips0 set.name p rt with
    | none => (ips0, [Event.addRefFail set.name p rt], some (addRefErrC rt))
    | some ips1 =>
      let r := createRefsLoop p rt rest ips1
      (r.1, Event.addRefOk set.name p rt :: r.2.1, r.2.2)

/-- Second loop of `createIPSetsAndReferences`: push the translated members —
every member of a CIDR-block set via AddToSets, and the members of a
nested-label list set via AddToLists — aborting with a wrapped error on the
first failure. -/
def createMembersLoop (or_ : Oracle) (rt : RefType) :
    List TranslatedIPSet → IPSetState → IPSetState × Option DPErr
  | [], ips => (ips, none)
  | set :: rest, ips =>
    if set.typ = SetType.cidrBlocks then
      match cidrAddLoop or_.addToSetsOk set.name set.members ips with
      | (ips1, some _) => (ips1, some (addRefErrC rt))
      | (ips1, none) => createMembersLoop or_ rt rest ips1
    else if set.typ = SetType.nestedLabelOfPod ∧ set.members ≠ [] then
      match mgrAddToLists or_.addToListsOk ips [set.name] set.members with
      | Except.error _ => (ips, some (addRefErrC rt))
      | Except.ok ips1 => createMembersLoop or_ rt rest ips1
    else
      createMembersLoop or_ rt rest ips

/-- createIPSetsAndReferences: set creation plus reference updates first,
then member pushes; the second loop only runs when the first succeeded. -/
def createIPSetsAndReferences (or_ : Oracle) (sets : List TranslatedIPSet)
    (p : String) (rt : RefType) (ips : IPSetState) :
    IPSetState × List Event × Option DPErr :=
  let r1 := createRefsLoop p rt sets ips
  match r1.2.2 with
  | some e => (r1.1, r1.2.1, some e)
  | none =>
    let r2 := createMembersLoop or_ rt sets r1.1
    (r2.1, r1.2.1, r2.2)

/-- reconcileDirtyNetPolsNow: commit the batched rules (failure leaves the
counter and the pending-cleanup table untouched); on success zero the rule
counter, then walk the pending-cleanup table — the source ranges over it
naming the key `policyKey` and the value list `ipsetNames`, synthesizing
`"TMP" ++ key` and calling DeleteReference(value, "TMP" ++ key, NetPolType)
for each value, ignoring set-does-not-exist — and finally clear the table. -/
def reconcileDirtyNetPolsNow (or_ : Oracle) (st : DPState) : DPState × Option DPErr :=
  if !or_.reconcileNetPolsOk then
    ({ st with log := st.log ++ [Event.metricErr] }, some DPErr.reconcileNetPols)
  else
    let st1 := { st with netPolNumBatches := 0 }
    let st2 := st1.toDeleteNetPolReferences.foldl
      (fun acc entry =>
        entry.2.foldl
          (fun acc2 nm =>
            let acc3 := { acc2 with
              log := acc2.log ++ [Event.delRefCall nm ("TMP" ++ entry.1) RefType.netPol] }
            match deleteReference acc3.ipsetState nm ("TMP" ++ entry.1) RefType.netPol with
            | none => acc3
            | some ips => { acc3 with ipsetState := ips })
          acc)
      st1
    ({ st2 with toDeleteNetPolReferences := [] }, none)

/-- incrementBatchAndReconcileDirtyNetPolsIfNeeded: a no-op unless iptables
runs in background; otherwise bump the rule counter and flush once it reaches
the configured maximum. -/
def incrementBatchAndReconcileDirtyNetPolsIfNeeded (dp : DataPlaneStatic)
    (or_ : Oracle) (st : DPState) : DPState × Option DPErr :=
  if !dp.iptablesInBackground then (st, none)
  else
    let st1 := { st with netPolNumBatches := st.netPolNumBatches + 1 }
    if st1.netPolNumBatches ≥ dp.iptablesMaxBatches then
      reconcileDirtyNetPolsNow or_ st1
    else (st1, none)

/-- PolicyManager.AddPolicy cache effect: store the policy under its key. -/
def insertPolicy (ps : List (String × NPMNetworkPolicy)) (p : NPMNetworkPolicy) :
    List (String × NPMNetworkPolicy) :=
  removeA ps p.PolicyKey ++ [(p.PolicyKey, p)]

/-- AddPolicy: create/reference selector sets, then rule sets (each failure
aborting immediately), force an apply, resolve endpoints, install the rules,
and finally count a dirty-policy event. -/
def AddPolicy (dp : DataPlaneStatic) (or_ : Oracle) (st : DPState)
    (policy : NPMNetworkPolicy) : DPState × Option DPErr :=
  let r1 := createIPSetsAndReferences or_ (AllPodSelectorIPSets policy)
    policy.PolicyKey RefType.selector st.ipsetState
  let st1 := { st with ipsetState := r1.1, log := st.log ++ r1.2.1 }
  match r1.2.2 with
  | some _ => (st1, some DPErr.addSelectorReference)
  | none =>
    let r2 := createIPSetsAndReferences or_ policy.RuleIPSets
      policy.PolicyKey RefType.netPol st1.ipsetState
    let st2 := { st1 with ipsetState := r2.1, log := st1.log ++ r2.2.1 }
    match r2.2.2 with
    | some _ => (st2, some DPErr.addNetPolReference)
    | none =>
      let r3 := applyDataPlaneNow dp or_ st2
      match r3.2 with
      | some e => (r3.1, some e)
      | none =>
        let st4 := { r3.1 with log := r3.1.log ++ [Event.resolveCall] }
        if !or_.endpointsResolveOk then (st4, some DPErr.endpointResolveWrapped)
        else
          let st5 := { st4 with log := st4.log ++ [Event.installCall] }
          if !or_.policyMgrAddOk then (st5, some DPErr.addPolicyWrapped)
          else
            let st6 := { st5 with policies := insertPolicy st5.policies policy }
            incrementBatchAndReconcileDirtyNetPolsIfNeeded dp or_ st6

/-- The endpoint-cache prune loop of RemovePolicy, verbatim from the source:
iterate over the snapshot of the policy's endpoints, and only when the pod
address is NOT a key of the policy's own PodEndpoints map (ok is false)
delete the policy key from the cached endpoint's reference set. -/
def pruneEndpointCache (cache : List (String × NpmEndpoint))
    (endpoints podEndpoints : List (String × String)) (policyKey : String) :
    List (String × NpmEndpoint) :=
  endpoints.foldl
    (fun c pe =>
      if (lookupA podEndpoints pe.1).isSome then c
      else
        c.map (fun ent =>
          if ent.1 = pe.1 then
            (ent.1, { ent.2 with
              netPolReference := ent.2.netPolReference.filter (fun r => decide (r ≠ policyKey)) })
          else ent))
    cache

/-- RemovePolicy: the source reads `policy.PodEndpoints` (building the
`endpoints` snapshot) before checking the found flag from GetPolicy, so a
missing policy dereferences a nil pointer — modelled as the `nilPanic`
outcome.  Otherwise: delete the policy from the rule engine, prune the
endpoint cache on the deferred backend, release rule-set then selector-set
references, force an apply, and count a dirty-policy event. -/
def RemovePolicy (dp : DataPlaneStatic) (or_ : Oracle) (st : DPState)
    (policyKey : String) : DPState × Option DPErr :=
  match lookupA st.policies policyKey with
  | none => (st, some DPErr.nilPanic)
  | some policy =>
    let endpoints := policy.PodEndpoints
    if !or_.policyMgrRemoveOk then (st, some DPErr.removePolicyWrapped)
    else
      let st1 := { st with policies := removeA st.policies policyKey }
      let st2 :=
        if shouldUpdatePod dp then
          { st1 with endpointCache :=
              pruneEndpointCache st1.endpointCache endpoints policy.PodEndpoints policyKey }
        else st1
      let r3 := deleteIPSetsAndReferences dp.iptablesInBackground or_
        policy.RuleIPSets policy.PolicyKey RefType.netPol st2.ipsetState
        st2.toDeleteNetPolReferences
      let st3 := { st2 with
        ipsetState := r3.1
        toDeleteNetPolReferences := r3.2.1
        log := st2.log ++ r3.2.2.1 }
      match r3.2.2.2 with
      | some e => (st3, some e)
      | none =>
        let r4 := deleteIPSetsAndReferences dp.iptablesInBackground or_
          (AllPodSelectorIPSets policy) policy.PolicyKey RefType.selector
          st3.ipsetState st3.toDeleteNetPolReferences
        let st4 := { st3 with
          ipsetState := r4.1
          toDeleteNetPolReferences := r4.2.1
          log := st3.log ++ r4.2.2.1 }
        match r4.2.2.2 with
        | some e => (st4, some e)
        | none =>
          match applyDataPlaneNow dp or_ st4 with
          | (st5, some e) => (st5, some e)
          | (st5, none) => incrementBatchAndReconcileDirtyNetPolsIfNeeded dp or_ st5

/-- A deferred-apply (Windows) dataplane: set-apply batching active, iptables
batching off (the source disables it off-Linux). -/
def dpWin : DataPlaneStatic :=
  { isWindows := true, applyInBackground := true, iptablesInBackground := false
    applyMaxBatches := 100, applyInterval := 1, iptablesMaxBatches := 100
    iptablesInterval := 1, nodeName := "n1" }

/-- An immediate-apply (Linux) dataplane with iptables batching active. -/
def dpLin : DataPlaneStatic :=
  { isWindows := false, applyInBackground := false, iptablesInBackground := true
    applyMaxBatches := 1, applyInterval := 1, iptablesMaxBatches := 100
    iptablesInterval := 1, nodeName := "n1" }

/-- The all-successful backend oracle. -/
def orOk : Oracle :=
  { applyIPSetsOk := true, reconcileNetPolsOk := true, policyMgrRemoveOk := true
    policyMgrAddOk := true, endpointsResolveOk := true, refreshOk := true
    addToSetsOk := true, removeFromSetsOk := true, addToListsOk := true
    removeFromListOk := true, updatePodOutcomes := [] }

/-- The empty dataplane state. -/
def emptyState : DPState :=
  { ipsetState := [], policies := [], endpointCache := [], updatePodQueue := []
    applyNumBatches := 0, netPolNumBatches := 0, toDeleteNetPolReferences := []
    log := [] }

/-- A policy with one observed pod endpoint and no sets. -/
def pol1 : NPMNetworkPolicy :=
  { PolicyKey := "x/p", podSelectorIPSets := [], RuleIPSets := []
    PodEndpoints := [("ip1", "e1")] }

/-- State holding `pol1` in the policy cache. -/
def st1a : DPState := { emptyState with policies := [("x/p", pol1)] }

/-- State holding the endpoint cache entry bound to `pol1`. -/
def st7 : DPState :=
  { st1a with endpointCache := [("ip1", { id := "e1", netPolReference := ["x/p"] })] }

/-- A set cache holding one rule-referenced set "s" for policy "p". -/
def ips2a : IPSetState := [{ name := "s", refs := [("p", RefType.netPol)], members := [] }]

/-- One plain (hash-kind, member-free) rule set named "s". -/
def sets2 : List TranslatedIPSet :=
  [{ name := "s", typ := SetType.keyValueLabelOfPod, members := [] }]

/-- Result of the batched reference release for policy "p" over `sets2`. -/
def c2del := deleteIPSetsAndReferences true orOk sets2 "p" RefType.netPol ips2a []

/-- The dataplane state right after the batched reference release, with one
pending rule batch. -/
def c2mid : DPState :=
  { emptyState with
    ipsetState := c2del.1
    toDeleteNetPolReferences := c2del.2.1
    netPolNumBatches := 1 }

/-- The all-failing backend oracle. -/
def orFail : Oracle :=
  { orOk with applyIPSetsOk := false, reconcileNetPolsOk := false }

/-- A configuration that enables background set-apply with an invalid batch
maximum and interval. -/
def badCfg : GoConfig :=
  { ApplyInBackground := true, ApplyMaxBatches := 0, ApplyInterval := 0
    IPTablesInBackground := false, IPTablesMaxBatches := 0, IPTablesInterval := 0 }

/-- The pod keys reported as successfully updated in a drain trace. -/
def updatedKeys : List Event → List String
  | [] => []
  | Event.podUpdated k :: rest => k :: updatedKeys rest
  | _ :: rest => updatedKeys rest

/-- An oracle whose first updatePod call fails and whose later calls
succeed. -/
def orDrain : Oracle := { orOk with updatePodOutcomes := [false, true, true] }

/-- A state with two queued pod updates. -/
def stQ : DPState :=
  { emptyState with updatePodQueue :=
      [{ podKey := "ns/a", podIP := "ip1", toAdd := ["s"], toRemove := [] },
       { podKey := "ns/b", podIP := "ip2", toAdd := [], toRemove := ["s"] }] }

/-- Trace well-ordering check for the temporary-reference protocol: scanning
the trace left to right while remembering (`seen`) the sets that already
received a successful temporary reference "TMP" ++ p of type rt, every real
reference deletion of (p, rt) must hit a set already in `seen`. -/
def tmpCoveredB (p : String) (rt : RefType) : List String → List Event → Bool
  | _, [] => true
  | seen, Event.addRefOk s r rt2 :: rest =>
    tmpCoveredB p rt (if r = "TMP" ++ p ∧ rt2 = rt then s :: seen else seen) rest
  | seen, Event.delRefCall s r rt2 :: rest =>
    (if r = p ∧ rt2 = rt then decide (s ∈ seen) else true) && tmpCoveredB p rt seen rest
  | seen, _ :: rest => tmpCoveredB p rt seen rest

/-- The number of backend-facing calls recorded in a trace: set commits and
failed commits, endpoint resolutions, and rule installs. -/
def backendCalls (l : List Event) : Nat :=
  countE Event.applyCommit l + countE Event.applyFail l
    + countE Event.resolveCall l + countE Event.installCall l

/-- An oracle failing only the member update calls. -/
def orMemberFail : Oracle := { orOk with addToSetsOk := false, removeFromSetsOk := false }

/-- A local-node pod on the deferred-apply backend. -/
def localPod : PodMetadata := { podIP := "ip1", podKey := "ns/pod1", nodeName := "n1" }

/-- A policy whose selector translation carries a CIDR-block set with one
member, so that a failing AddToSets surfaces in the selector stage. -/
def polCidr : NPMNetworkPolicy :=
  { PolicyKey := "k8"
    podSelectorIPSets := [{ name := "c1", typ := SetType.cidrBlocks, members := ["10.0.0.0/8"] }]
    RuleIPSets := []
    PodEndpoints := [] }

/-- Oracle failing the member-push AddToSets calls. -/
def orCid : Oracle := { orOk with addToSetsOk := false }

/-- A plain policy with one selector set and one rule set. -/
def polPlain : NPMNetworkPolicy :=
  { PolicyKey := "k9"
    podSelectorIPSets := [{ name := "sel1", typ := SetType.keyValueLabelOfPod, members := [] }]
    RuleIPSets := [{ name := "rule1", typ := SetType.keyValueLabelOfPod, members := [] }]
    PodEndpoints := [] }

/-- Oracle failing endpoint resolution only. -/
def orRes : Oracle := { orOk with endpointsResolveOk := false }

theorem insertRef_mem (rs : List (String × RefType)) (r : String) (rt : RefType) :
    (r, rt) ∈ insertRef rs r rt := by
  unfold insertRef
  split
  · assumption
  · exact List.mem_cons_self _ _

theorem insertRef_subset (rs : List (String × RefType)) (r : String) (rt : RefType)
    (x : String × RefType) (hx : x ∈ rs) : x ∈ insertRef rs r rt := by
  unfold insertRef
  split
  · exact hx
  · exact List.mem_cons_of_mem _ hx

theorem addReference_hasRef (ips : IPSetState) (nm r : String) (rt : RefType)
    (ips' : IPSetState) (h : addReference ips nm r rt = some ips') :
    hasRef ips' nm r rt = true := by
  induction ips generalizing ips' with
  | nil => simp [addReference] at h
  | cons e rest ih =>
    unfold addReference at h
    split at h
    · rename_i hnm
      cases h
      simp [hasRef, List.any_cons, hnm, insertRef_mem]
    · rename_i hnm
      cases hrec : addReference rest nm r rt with
      | none => simp [hrec] at h
      | some rest' =>
        simp [hrec] at h
        subst h
        simp [hasRef, List.any_cons]
        rcases (by simpa [hasRef] using ih rest' hrec) with h1
        right
        exact h1

theorem addReference_preserves (ips : IPSetState) (nm r : String) (rt : RefType)
    (ips' : IPSetState) (h : addReference ips nm r rt = some ips')
    (s r' : String) (rt' : RefType) (hh : hasRef ips s r' rt' = true) :
    hasRef ips' s r' rt' = true := by
  induction ips generalizing ips' with
  | nil => simp [addReference] at h
  | cons e rest ih =>
    unfold addReference at h
    split at h
    · rename_i hnm
      cases h
      simp only [hasRef, List.any_cons, Bool.or_eq_true] at hh ⊢
      rcases hh with hh | hh
      · left
        simp only [Bool.and_eq_true, decide_eq_true_eq] at hh ⊢
        exact ⟨hh.1, insertRef_subset _ _ _ _ hh.2⟩
      · right; exact hh
    · cases hrec : addReference rest nm r rt with
      | none => simp [hrec] at h
      | some rest' =>
        simp [hrec] at h
        subst h
        simp only [hasRef, List.any_cons, Bool.or_eq_true] at hh ⊢
        rcases hh with hh | hh
        · left; exact hh
        · right
          simpa [hasRef] using ih rest' hrec (by simpa [hasRef] using hh)

theorem deleteReference_preserves (ips : IPSetState) (nm r : String) (rt : RefType)
    (ips' : IPSetState) (h : deleteReference ips nm r rt = some ips')
    (s r' : String) (rt' : RefType) (hne : (r', rt') ≠ (r, rt))
    (hh : hasRef ips s r' rt' = true) : hasRef ips' s r' rt' = true := by
  induction ips generalizing ips' with
  | nil => simp [deleteReference] at h
  | cons e rest ih =>
    unfold deleteReference at h
    split at h
    · cases h
      simp only [hasRef, List.any_cons, Bool.or_eq_true] at hh ⊢
      rcases hh with hh | hh
      · left
        simp only [Bool.and_eq_true, decide_eq_true_eq] at hh ⊢
        exact ⟨hh.1, List.mem_filter.mpr ⟨hh.2, decide_eq_true hne⟩⟩
      · right; exact hh
    · cases hrec : deleteReference rest nm r rt with
      | none => simp [hrec] at h
      | some rest' =>
        simp [hrec] at h
        subst h
        simp only [hasRef, List.any_cons, Bool.or_eq_true] at hh ⊢
        rcases hh with hh | hh
        · left; exact hh
        · right
          simpa [hasRef] using ih rest' hrec (by simpa [hasRef] using hh)

theorem mapMembersAt_hasRef (ips : IPSetState) (nm : String)
    (f : List String → List String) (s r : String) (rt : RefType) :
    hasRef (mapMembersAt ips nm f) s r rt = hasRef ips s r rt := by
  induction ips with
  | nil => rfl
  | cons e rest ih =>
    simp only [mapMembersAt, List.map_cons, hasRef, List.any_cons] at ih ⊢
    split <;> simp_all [hasRef, mapMembersAt]

theorem tmp_key_ne (p : String) : "TMP" ++ p ≠ p := by
  intro h
  have h2 := congrArg String.length h
  rw [String.length_append] at h2
  have h3 : ("TMP" : String).length = 3 := rfl
  omega

/-- C1: the spec says RemovePolicy of an absent key is a successful no-op and
that a second RemovePolicy in succession also succeeds.  In the source the
`endpoints` snapshot is built from `policy.PodEndpoints` BEFORE the found
flag of GetPolicy is checked, so the absent-policy path dereferences a nil
policy pointer and panics instead of returning nil: the first removal of
`pol1` succeeds, and the immediately following identical call panics. -/
theorem removePolicy_missingPolicy_panics :
    (RemovePolicy dpWin orOk st1a "x/p").2 = none
    ∧ (RemovePolicy dpWin orOk (RemovePolicy dpWin orOk st1a "x/p").1 "x/p").2
        = some DPErr.nilPanic := by
  constructor
  · rfl
  · rfl

/-- C7: the spec says RemovePolicy drops the policy key from every bound
endpoint's reference set.  The source guards the delete with
`if _, ok := policy.PodEndpoints[podIP]; !ok` while iterating over a snapshot
of that very map, so the condition is always false and the cache is never
pruned: after a successful RemovePolicy the endpoint still references the
removed policy. -/
theorem removePolicy_endpointCache_notPruned :
    (RemovePolicy dpWin orOk st7 "x/p").2 = none
    ∧ (RemovePolicy dpWin orOk st7 "x/p").1.endpointCache
        = [("ip1", { id := "e1", netPolReference := ["x/p"] })] := by
  constructor
  · rfl
  · rfl

/-- C2: the pending-cleanup table is recorded as the claim says — set name
"s" maps to the policy list ["p"] — but the successful flush does NOT delete
reference "TMP"++"p" from set "s": the source swaps the table's roles when
releasing (it deletes reference "TMP"++setName from a set named by the
policy key), so the temporary reference survives the flush even though the
table is cleared. -/
theorem reconcile_tmpReference_notReleased :
    c2del.2.1 = [("s", ["p"])]
    ∧ (reconcileDirtyNetPolsNow orOk c2mid).2 = none
    ∧ hasRef (reconcileDirtyNetPolsNow orOk c2mid).1.ipsetState "s" ("TMP" ++ "p")
        RefType.netPol = true
    ∧ (reconcileDirtyNetPolsNow orOk c2mid).1.toDeleteNetPolReferences = [] := by
  refine ⟨rfl, rfl, ?_, rfl⟩
  rfl

/-- C5: a failed set flush leaves the apply-batch counter exactly as it was
(the reset happens only after a successful ApplyIPSets), and a failed rule
flush leaves both the rule-batch counter and the pending-cleanup table
exactly as they were. -/
theorem flushFailure_preservesCounters (dp : DataPlaneStatic) (or_ : Oracle)
    (st st2 : DPState) (h1 : or_.applyIPSetsOk = false)
    (h2 : or_.reconcileNetPolsOk = false) :
    ((applyDataPlaneNow dp or_ st).1.applyNumBatches = st.applyNumBatches
      ∧ (applyDataPlaneNow dp or_ st).2 = some DPErr.applyIPSets)
    ∧ ((reconcileDirtyNetPolsNow or_ st2).1.netPolNumBatches = st2.netPolNumBatches
      ∧ (reconcileDirtyNetPolsNow or_ st2).1.toDeleteNetPolReferences
          = st2.toDeleteNetPolReferences
      ∧ (reconcileDirtyNetPolsNow or_ st2).2 = some DPErr.reconcileNetPols) := by
  simp [applyDataPlaneNow, reconcileDirtyNetPolsNow, h1, h2]

/-- Witness for `flushFailure_preservesCounters` at a concrete state. -/
theorem flushFailure_preservesCounters_check :
    (applyDataPlaneNow dpWin orFail st7).1.applyNumBatches = st7.applyNumBatches
    ∧ (reconcileDirtyNetPolsNow orFail c2mid).1.netPolNumBatches = c2mid.netPolNumBatches :=
  ⟨(flushFailure_preservesCounters dpWin orFail st7 c2mid rfl rfl).1.1,
   (flushFailure_preservesCounters dpWin orFail st7 c2mid rfl rfl).2.1⟩

/-- C6 counterexample: on the immediate-apply (Linux) platform, NewDataPlane
with background batching enabled and an invalid batch size/interval does NOT
fail with ErrInvalidApplyConfig — it succeeds and silently disables
background batching (`applyInBackground = false`), because the source derives
`applyInBackground = cfg.ApplyInBackground && IsWindowsDP()` before
validating. -/
theorem newDataPlane_linux_silentlyDisables :
    (NewDataPlane false "n1" badCfg true).toOption.map (fun dp => dp.applyInBackground)
      = some false := by
  rfl

/-- C6 (amended): on the deferred-apply (Windows) platform, NewDataPlane
fails fast with ErrInvalidApplyConfig whenever background batching is
requested with a non-positive batch maximum or a zero interval, and a
successful construction with background batching requested always has it
enabled (never silently disabled). -/
theorem newDataPlane_windows_failsFast :
    (∀ (nn : String) (cfg : GoConfig) (bootOk : Bool),
        cfg.ApplyInBackground = true →
        (cfg.ApplyMaxBatches ≤ 0 ∨ cfg.ApplyInterval = 0) →
        NewDataPlane true nn cfg bootOk = Except.error NewErr.invalidApplyConfig)
    ∧ (∀ (nn : String) (cfg : GoConfig) (bootOk : Bool) (dp : DataPlaneStatic),
        cfg.ApplyInBackground = true →
        NewDataPlane true nn cfg bootOk = Except.ok dp →
        dp.applyInBackground = true) := by
  constructor
  · intro nn cfg bootOk hbg hbad
    unfold NewDataPlane
    simp only [hbg, Bool.true_and, Bool.and_true]
    have : (decide (cfg.ApplyMaxBatches ≤ 0) || decide (cfg.ApplyInterval = 0)) = true := by
      rcases hbad with h | h <;> simp [h]
    simp [this]
  · intro nn cfg bootOk dp hbg hok
    unfold NewDataPlane at hok
    split at hok
    · exact absurd hok (by simp)
    · split at hok
      · exact absurd hok (by simp)
      · injection hok with h
        rw [← h]
        simp [hbg]

/-- Witness for `newDataPlane_windows_failsFast` at concrete inputs. -/
theorem newDataPlane_windows_failsFast_check :
    NewDataPlane true "n1" badCfg true = Except.error NewErr.invalidApplyConfig :=
  newDataPlane_windows_failsFast.1 "n1" badCfg true rfl (Or.inl (by decide))

theorem countE_append (ev : Event) (l1 l2 : List Event) :
    countE ev (l1 ++ l2) = countE ev l1 + countE ev l2 := by
  simp [countE, List.filter_append]

/-- The queue drain never commits sets: its trace holds only pod-update and
metric events. -/
theorem drain_no_commit (q : List UpdPod) (os : List Bool) :
    countE Event.applyCommit (drainPods q os).2 = 0 := by
  induction q, os using drainPods.induct with
  | case1 os => simp [drainPods, countE]
  | case2 p rest ih => simpa [drainPods, countE] using ih
  | case3 p rest os ih => simpa [drainPods, countE] using ih
  | case4 p rest os ih => simpa [drainPods, countE] using ih

/-- `drain_no_commit` restated on the unfolded filter form. -/
theorem drain_no_commit_filter (q : List UpdPod) (os : List Bool) :
    (List.filter (fun e => decide (e = Event.applyCommit)) (drainPods q os).2).length = 0 :=
  drain_no_commit q os

/-- On a successful ApplyIPSets, `applyDataPlaneNow` resets the apply counter
exactly when background batching is active, commits exactly once, and
returns no error — in every queue/refresh configuration. -/
theorem applyNow_ok_spec (dp : DataPlaneStatic) (or_ : Oracle) (st : DPState)
    (h : or_.applyIPSetsOk = true) :
    (applyDataPlaneNow dp or_ st).1.applyNumBatches
        = (if dp.applyInBackground then 0 else st.applyNumBatches)
    ∧ countE Event.applyCommit (applyDataPlaneNow dp or_ st).1.log
        = countE Event.applyCommit st.log + 1
    ∧ (applyDataPlaneNow dp or_ st).2 = none := by
  unfold applyDataPlaneNow
  simp only [h, Bool.not_true, Bool.false_eq_true, if_false]
  by_cases hbg : dp.applyInBackground <;>
    by_cases hsu : shouldUpdatePod dp <;>
      by_cases hq : st.updatePodQueue = [] <;>
        by_cases hr : or_.refreshOk <;>
          simp [hbg, hsu, hq, hr, countE_append, countE, drain_no_commit,
            drain_no_commit_filter]

/-- C4: with background apply active, apply-batch maximum N and a zero
counter, each of the first N−1 ApplyDataPlane calls leaves the state
untouched except for the counter, which equals the number of calls so far
(in particular no ApplyIPSets commit happens); the N-th call commits exactly
once and resets the counter to zero. -/
theorem applyDataPlane_batchThreshold (dp : DataPlaneStatic) (or_ : Oracle)
    (st : DPState) (N : Nat) (hbg : dp.applyInBackground = true)
    (hok : or_.applyIPSetsOk = true) (hN : dp.applyMaxBatches = (N : Int))
    (hN1 : 1 ≤ N) (h0 : st.applyNumBatches = 0) :
    (∀ k, k < N → applyCalls dp or_ k st = { st with applyNumBatches := (k : Int) })
    ∧ (applyCalls dp or_ N st).applyNumBatches = 0
    ∧ countE Event.applyCommit (applyCalls dp or_ N st).log
        = countE Event.applyCommit st.log + 1 := by
  have hbelow : ∀ k, k < N →
      applyCalls dp or_ k st = { st with applyNumBatches := (k : Int) } := by
    intro k
    induction k with
    | zero =>
      intro _
      cases st
      simp_all [applyCalls]
    | succ k ih =>
      intro hk
      have hk' : k < N := Nat.lt_of_succ_lt hk
      have hprev := ih hk'
      show (ApplyDataPlane dp or_ (applyCalls dp or_ k st)).1 = _
      rw [hprev]
      unfold ApplyDataPlane incrementBatchAndApplyIfNeeded
      have hlt : ¬ ((k : Int) + 1 ≥ dp.applyMaxBatches) := by
        rw [hN]
        omega
      simp [hbg, hlt]
  refine ⟨hbelow, ?_⟩
  obtain ⟨M, rfl⟩ : ∃ M, N = M + 1 := ⟨N - 1, by omega⟩
  have hprev := hbelow M (Nat.lt_succ_self M)
  have hstep : applyCalls dp or_ (M + 1) st
      = (ApplyDataPlane dp or_ (applyCalls dp or_ M st)).1 := rfl
  rw [hstep, hprev]
  unfold ApplyDataPlane incrementBatchAndApplyIfNeeded
  have hge : ((M : Int) + 1 ≥ dp.applyMaxBatches) := by
    rw [hN]
    push_cast
    omega
  simp only [hbg, if_true, hge, ge_iff_le, if_pos]
  have hspec := applyNow_ok_spec dp or_
    { st with applyNumBatches := (M : Int) + 1 } hok
  constructor
  · rw [hspec.1]
    simp [hbg]
  · exact hspec.2.1

/-- Witness for `applyDataPlane_batchThreshold` with N = 2 from the empty
state: two background calls commit exactly once and land the counter on 0. -/
theorem applyDataPlane_batchThreshold_check :
    (applyCalls { dpWin with applyMaxBatches := 2 } orOk 2 emptyState).applyNumBatches = 0 :=
  (applyDataPlane_batchThreshold { dpWin with applyMaxBatches := 2 } orOk emptyState 2
    rfl rfl rfl (by decide) rfl).2.1

/-- Queue-drain conservation: every pod initially queued is either reported
updated or still in the final queue — no pod is dropped, whatever the
per-call failure pattern. -/
theorem drain_conserves (q : List UpdPod) (os : List Bool) :
    ((drainPods q os).1.map (fun u => u.podKey)
      ++ updatedKeys (drainPods q os).2).Perm (q.map (fun u => u.podKey)) := by
  induction q, os using drainPods.induct with
  | case1 os => simp [drainPods, updatedKeys]
  | case2 p rest ih =>
    simp only [drainPods, updatedKeys, List.map_cons]
    exact (List.perm_middle).trans (List.Perm.cons _ ih)
  | case3 p rest os ih =>
    simp only [drainPods, updatedKeys, List.map_cons]
    exact (List.perm_middle).trans (List.Perm.cons _ ih)
  | case4 p rest os ih =>
    simp only [drainPods, updatedKeys, List.map_cons]
    refine ih.trans ?_
    rw [List.map_append]
    exact (List.perm_append_comm).trans (by simp)

/-- C9: on the deferred backend with a successful set commit and endpoint
refresh, `applyDataPlaneNow` returns success whatever the per-pod outcomes;
no queued pod is dropped (each is either reported updated or back in the
queue); and a failed updatePod call requeues its pod at the back of the
queue while logging the failure metric. -/
theorem applyNow_failedPodsRequeued (dp : DataPlaneStatic) (or_ : Oracle)
    (st : DPState) (hw : dp.isWindows = true) (ha : or_.applyIPSetsOk = true)
    (hr : or_.refreshOk = true) :
    (applyDataPlaneNow dp or_ st).2 = none
    ∧ ((applyDataPlaneNow dp or_ st).1.updatePodQueue.map (fun u => u.podKey)
        ++ updatedKeys ((applyDataPlaneNow dp or_ st).1.log.drop st.log.length)).Perm
        (st.updatePodQueue.map (fun u => u.podKey))
    ∧ ∀ (p : UpdPod) (rest : List UpdPod) (os : List Bool),
        drainPods (p :: rest) (false :: os)
          = ((drainPods (rest ++ [p]) os).1,
             Event.updateFailed p.podKey :: (drainPods (rest ++ [p]) os).2) := by
  refine ⟨?_, ?_, ?_⟩
  · unfold applyDataPlaneNow
    by_cases hbg : dp.applyInBackground <;>
      by_cases hq : st.updatePodQueue = [] <;>
        simp [ha, hr, shouldUpdatePod, hw, hq, hbg]
  · unfold applyDataPlaneNow
    by_cases hbg : dp.applyInBackground <;>
      by_cases hq : st.updatePodQueue = [] <;>
        simp [ha, hr, shouldUpdatePod, hw, hq, hbg, List.drop_left, updatedKeys,
          drain_conserves]
  · intro p rest os
    simp [drainPods]

/-- Witness for `applyNow_failedPodsRequeued`: a drain whose first call
fails still ends in success. -/
theorem applyNow_failedPodsRequeued_check :
    (applyDataPlaneNow dpWin orDrain stQ).2 = none :=
  (applyNow_failedPodsRequeued dpWin orDrain stQ rfl rfl rfl).1

theorem foldl_mapMembersAt_hasRef (s r : String) (rt : RefType)
    (f : String → List String → List String) (names : List String) :
    ∀ ips : IPSetState,
      hasRef (names.foldl (fun acc nm => mapMembersAt acc nm (f nm)) ips) s r rt
        = hasRef ips s r rt := by
  induction names with
  | nil => intro ips; rfl
  | cons nm rest ih =>
    intro ips
    simp only [List.foldl_cons]
    rw [ih (mapMembersAt ips nm (f nm)), mapMembersAt_hasRef]

theorem cidrRemoveLoop_hasRef (ok : Bool) (nm : String) (ms : List String)
    (s r : String) (rt : RefType) :
    ∀ ips : IPSetState, hasRef (cidrRemoveLoop ok nm ms ips).1 s r rt
      = hasRef ips s r rt := by
  induction ms with
  | nil => intro ips; rfl
  | cons m rest ih =>
    intro ips
    cases hok : ok with
    | false => simp [cidrRemoveLoop, mgrRemoveFromSets, hok]
    | true =>
      rw [hok] at ih
      simp [cidrRemoveLoop, mgrRemoveFromSets, hok, ih, mapMembersAt_hasRef]

theorem removeMembersLoop_hasRef (or_ : Oracle) (rt : RefType)
    (sets : List TranslatedIPSet) (s r : String) (rt2 : RefType) :
    ∀ ips : IPSetState, hasRef (removeMembersLoop or_ rt sets ips).1 s r rt2
      = hasRef ips s r rt2 := by
  induction sets with
  | nil => intro ips; rfl
  | cons set rest ih =>
    intro ips
    by_cases h1 : set.typ = SetType.cidrBlocks
    · cases hc : cidrRemoveLoop or_.removeFromSetsOk set.name set.members ips with
      | mk ips1 err =>
        have hkeep : hasRef ips1 s r rt2 = hasRef ips s r rt2 := by
          have := cidrRemoveLoop_hasRef or_.removeFromSetsOk set.name set.members s r rt2 ips
          rw [hc] at this
          exact this
        cases err with
        | none => simp only [removeMembersLoop, h1, if_true, hc]; exact (ih ips1).trans hkeep
        | some e => simpa [removeMembersLoop, h1, hc] using hkeep
    · by_cases h2 : SetType.kind set.typ = SetKind.listSet ∧ set.members ≠ []
      · cases hok : or_.removeFromListOk with
        | false => simp [removeMembersLoop, h1, h2, mgrRemoveFromList, hok]
        | true =>
          simp [removeMembersLoop, h1, h2, mgrRemoveFromList, hok, ih,
            mapMembersAt_hasRef]
      · simp only [removeMembersLoop, h1, h2, if_false]
        exact ih ips

theorem delRefsLoop_tmpCovered (p : String) (rt : RefType)
    (sets : List TranslatedIPSet) :
    ∀ (ips : IPSetState) (tbl : List (String × List String)) (seen : List String)
      (tail : List Event),
      (∀ s2 : List String, tmpCoveredB p rt s2 tail = true) →
      tmpCoveredB p rt seen ((delRefsLoop true p rt sets ips tbl).2.2 ++ tail) = true := by
  induction sets with
  | nil =>
    intro ips tbl seen tail htail
    simpa [delRefsLoop] using htail seen
  | cons set rest ih =>
    intro ips tbl seen tail htail
    cases haddr : addReference ips set.name ("TMP" ++ p) rt with
    | none =>
      simp only [delRefsLoop, if_true, haddr]
      simpa [tmpCoveredB] using ih ips tbl seen tail htail
    | some ips1 =>
      simp only [delRefsLoop, if_true, haddr]
      simpa [tmpCoveredB, List.mem_cons] using
        ih (delRefOrKeep ips1 set.name p rt) (tableAppend tbl set.name p)
          (set.name :: seen) tail htail

theorem delRefOrKeep_preserves (ips : IPSetState) (nm r : String) (rt : RefType)
    (s r' : String) (rt' : RefType) (hne : (r', rt') ≠ (r, rt))
    (hh : hasRef ips s r' rt' = true) :
    hasRef (delRefOrKeep ips nm r rt) s r' rt' = true := by
  unfold delRefOrKeep
  cases hdel : deleteReference ips nm r rt with
  | none => exact hh
  | some x => exact deleteReference_preserves ips nm r rt x hdel s r' rt' hne hh

theorem delRefsLoop_tmpPersists (p : String) (rt : RefType)
    (sets : List TranslatedIPSet) :
    ∀ (ips : IPSetState) (tbl : List (String × List String)) (s : String),
      (Event.delRefCall s p rt ∈ (delRefsLoop true p rt sets ips tbl).2.2
        ∨ hasRef ips s ("TMP" ++ p) rt = true) →
      hasRef (delRefsLoop true p rt sets ips tbl).1 s ("TMP" ++ p) rt = true := by
  have hpairne : ∀ p : String, (("TMP" ++ p, rt) : String × RefType) ≠ (p, rt) := by
    intro p
    simp [tmp_key_ne p]
  induction sets with
  | nil =>
    intro ips tbl s h
    rcases h with h | h
    · simp [delRefsLoop] at h
    · simpa [delRefsLoop] using h
  | cons set rest ih =>
    intro ips tbl s h
    cases haddr : addReference ips set.name ("TMP" ++ p) rt with
    | none =>
      simp only [delRefsLoop, if_true, haddr] at h ⊢
      rcases h with h | h
      · simp only [List.mem_cons] at h
        rcases h with h | h
        · exact absurd h (by simp)
        · exact ih ips tbl s (Or.inl h)
      · exact ih ips tbl s (Or.inr h)
    | some ips1 =>
      simp only [delRefsLoop, if_true, haddr] at h ⊢
      have hips1self : hasRef ips1 set.name ("TMP" ++ p) rt = true :=
        addReference_hasRef ips set.name ("TMP" ++ p) rt ips1 haddr
      have hkeepself : hasRef (delRefOrKeep ips1 set.name p rt) set.name
          ("TMP" ++ p) rt = true :=
        delRefOrKeep_preserves ips1 set.name p rt set.name _ rt (hpairne p) hips1self
      rcases h with h | h
      · simp only [List.mem_cons] at h
        rcases h with h | h
        · exact absurd h (by simp)
        · rcases h with h | h
          · have hs : s = set.name := by
              injection h with h1 h2 h3
            subst hs
            exact ih (delRefOrKeep ips1 set.name p rt) (tableAppend tbl set.name p)
              set.name (Or.inr hkeepself)
          · exact ih (delRefOrKeep ips1 set.name p rt) (tableAppend tbl set.name p) s
              (Or.inl h)
      · refine ih (delRefOrKeep ips1 set.name p rt) (tableAppend tbl set.name p) s
          (Or.inr ?_)
        exact delRefOrKeep_preserves ips1 set.name p rt s _ rt (hpairne p)
          (addReference_preserves ips set.name _ rt ips1 haddr s _ rt h)

/-- C3: under batched rule mode, the reference-release trace of
`deleteIPSetsAndReferences` adds the temporary reference "TMP" ++ policyKey
to a set strictly before any real-reference deletion on that set
(`tmpCoveredB` with an empty memory), and every set whose real reference was
deleted still carries the temporary reference in the final cache — so it is
never reported as zero-referenced before the next successful rule commit,
the only point where temporary references are released. -/
theorem deleteRefs_tmpBeforeReal (batched : Bool) (or_ : Oracle)
    (sets : List TranslatedIPSet) (p : String) (rt : RefType)
    (ips : IPSetState) (tbl : List (String × List String))
    (hbg : batched = true) :
    tmpCoveredB p rt [] (deleteIPSetsAndReferences batched or_ sets p rt ips tbl).2.2.1 = true
    ∧ ∀ s : String,
        Event.delRefCall s p rt
            ∈ (deleteIPSetsAndReferences batched or_ sets p rt ips tbl).2.2.1 →
        hasRef (deleteIPSetsAndReferences batched or_ sets p rt ips tbl).1
          s ("TMP" ++ p) rt = true := by
  subst hbg
  constructor
  · have := delRefsLoop_tmpCovered p rt sets ips tbl [] [] (fun _ => rfl)
    simpa [deleteIPSetsAndReferences] using this
  · intro s hmem
    simp only [deleteIPSetsAndReferences] at hmem ⊢
    rw [removeMembersLoop_hasRef]
    exact delRefsLoop_tmpPersists p rt sets ips tbl s (Or.inl hmem)

/-- Witness for `deleteRefs_tmpBeforeReal` on the concrete batched release of
policy "p" over the one-set list `sets2`. -/
theorem deleteRefs_tmpBeforeReal_check :
    tmpCoveredB "p" RefType.netPol []
      (deleteIPSetsAndReferences true orOk sets2 "p" RefType.netPol ips2a []).2.2.1 = true :=
  (deleteRefs_tmpBeforeReal true orOk sets2 "p" RefType.netPol ips2a [] rfl).1

theorem backendCalls_append (l1 l2 : List Event) :
    backendCalls (l1 ++ l2) = backendCalls l1 + backendCalls l2 := by
  simp [backendCalls, countE_append]
  omega

theorem createRefsLoop_backendCalls (p : String) (rt : RefType)
    (sets : List TranslatedIPSet) :
    ∀ ips : IPSetState, backendCalls (createRefsLoop p rt sets ips).2.1 = 0 := by
  induction sets with
  | nil => intro ips; rfl
  | cons set rest ih =>
    intro ips
    cases haddr : addReference (createIPSet ips { name := set.name, typ := set.typ })
        set.name p rt with
    | none => simp [createRefsLoop, haddr, backendCalls, countE]
    | some ips1 =>
      simp only [createRefsLoop, haddr]
      simpa [backendCalls, countE] using ih ips1

theorem createIPSets_events_eq (or_ : Oracle) (sets : List TranslatedIPSet)
    (p : String) (rt : RefType) (ips : IPSetState) :
    (createIPSetsAndReferences or_ sets p rt ips).2.1
      = (createRefsLoop p rt sets ips).2.1 := by
  unfold createIPSetsAndReferences
  cases h : (createRefsLoop p rt sets ips).2.2 <;> simp [h]

/-- `applyDataPlaneNow` never touches the set cache or the policy cache. -/
theorem applyNow_keepsCaches (dp : DataPlaneStatic) (or_ : Oracle) (st : DPState) :
    (applyDataPlaneNow dp or_ st).1.ipsetState = st.ipsetState
    ∧ (applyDataPlaneNow dp or_ st).1.policies = st.policies := by
  unfold applyDataPlaneNow
  by_cases ha : or_.applyIPSetsOk <;>
    by_cases hbg : dp.applyInBackground <;>
      by_cases hsu : shouldUpdatePod dp <;>
        by_cases hq : st.updatePodQueue = [] <;>
          by_cases hr : or_.refreshOk <;>
            simp [ha, hbg, hsu, hq, hr]

/-- C8: in AddPolicy, (i) a selector-reference failure and (ii) a
rule-reference failure each return immediately — no set commit, no endpoint
resolution, no rule install is performed and the policy cache is untouched —
while (iii) an endpoint-resolution failure and (iv) a rule-install failure
are returned to the caller with the set cache exactly as the reference
creation left it (no rollback of the created references). -/
theorem addPolicy_errorStaging (dp : DataPlaneStatic) (or_ : Oracle)
    (st : DPState) (policy : NPMNetworkPolicy) :
    ((createIPSetsAndReferences or_ (AllPodSelectorIPSets policy) policy.PolicyKey
        RefType.selector st.ipsetState).2.2.isSome →
      (AddPolicy dp or_ st policy).2 = some DPErr.addSelectorReference
      ∧ backendCalls (AddPolicy dp or_ st policy).1.log = backendCalls st.log
      ∧ (AddPolicy dp or_ st policy).1.policies = st.policies)
    ∧ ((createIPSetsAndReferences or_ (AllPodSelectorIPSets policy) policy.PolicyKey
        RefType.selector st.ipsetState).2.2 = none →
      (createIPSetsAndReferences or_ policy.RuleIPSets policy.PolicyKey
        RefType.netPol (createIPSetsAndReferences or_ (AllPodSelectorIPSets policy)
          policy.PolicyKey RefType.selector st.ipsetState).1).2.2.isSome →
      (AddPolicy dp or_ st policy).2 = some DPErr.addNetPolReference
      ∧ backendCalls (AddPolicy dp or_ st policy).1.log = backendCalls st.log
      ∧ (AddPolicy dp or_ st policy).1.policies = st.policies)
    ∧ ((createIPSetsAndReferences or_ (AllPodSelectorIPSets policy) policy.PolicyKey
        RefType.selector st.ipsetState).2.2 = none →
      (createIPSetsAndReferences or_ policy.RuleIPSets policy.PolicyKey
        RefType.netPol (createIPSetsAndReferences or_ (AllPodSelectorIPSets policy)
          policy.PolicyKey RefType.selector st.ipsetState).1).2.2 = none →
      or_.applyIPSetsOk = true → or_.endpointsResolveOk = false →
      (AddPolicy dp or_ st policy).2 = some DPErr.endpointResolveWrapped
      ∧ (AddPolicy dp or_ st policy).1.ipsetState
          = (createIPSetsAndReferences or_ policy.RuleIPSets policy.PolicyKey
              RefType.netPol (createIPSetsAndReferences or_ (AllPodSelectorIPSets policy)
                policy.PolicyKey RefType.selector st.ipsetState).1).1)
    ∧ ((createIPSetsAndReferences or_ (AllPodSelectorIPSets policy) policy.PolicyKey
        RefType.selector st.ipsetState).2.2 = none →
      (createIPSetsAndReferences or_ policy.RuleIPSets policy.PolicyKey
        RefType.netPol (createIPSetsAndReferences or_ (AllPodSelectorIPSets policy)
          policy.PolicyKey RefType.selector st.ipsetState).1).2.2 = none →
      or_.applyIPSetsOk = true → or_.endpointsResolveOk = true →
      or_.policyMgrAddOk = false →
      (AddPolicy dp or_ st policy).2 = some DPErr.addPolicyWrapped
      ∧ (AddPolicy dp or_ st policy).1.ipsetState
          = (createIPSetsAndReferences or_ policy.RuleIPSets policy.PolicyKey
              RefType.netPol (createIPSetsAndReferences or_ (AllPodSelectorIPSets policy)
                policy.PolicyKey RefType.selector st.ipsetState).1).1) := by
  refine ⟨?_, ?_, ?_, ?_⟩
  · intro hA
    obtain ⟨e, he⟩ := Option.isSome_iff_exists.mp hA
    simp [AddPolicy, he, backendCalls_append, createIPSets_events_eq,
      createRefsLoop_backendCalls]
  · intro hA hB
    obtain ⟨e, he⟩ := Option.isSome_iff_exists.mp hB
    simp [AddPolicy, hA, he, backendCalls_append, createIPSets_events_eq,
      createRefsLoop_backendCalls]
  · intro hA hB happly hres
    have hnone : ∀ stx : DPState, (applyDataPlaneNow dp or_ stx).2 = none :=
      fun stx => (applyNow_ok_spec dp or_ stx happly).2.2
    have hkeep : ∀ stx : DPState, (applyDataPlaneNow dp or_ stx).1.ipsetState = stx.ipsetState :=
      fun stx => (applyNow_keepsCaches dp or_ stx).1
    simp only [AddPolicy, hA, hB, hnone, hres]
    exact ⟨rfl, hkeep _⟩
  · intro hA hB happly hres hinst
    have hnone : ∀ stx : DPState, (applyDataPlaneNow dp or_ stx).2 = none :=
      fun stx => (applyNow_ok_spec dp or_ stx happly).2.2
    have hkeep : ∀ stx : DPState, (applyDataPlaneNow dp or_ stx).1.ipsetState = stx.ipsetState :=
      fun stx => (applyNow_keepsCaches dp or_ stx).1
    simp only [AddPolicy, hA, hB, hnone, hres, hinst]
    exact ⟨rfl, hkeep _⟩

/-- C10: when the underlying IPSetManager update fails, AddToSets and
RemoveFromSets return the wrapped manager error and leave the whole state —
the update-pod queue in particular — exactly as it was: no pod delta is
enqueued or merged on the error path. -/
theorem setMutation_errorLeavesQueue (dp : DataPlaneStatic) (or_ : Oracle)
    (st : DPState) (setNames : List IPSetMetadata) (pod : PodMetadata)
    (h1 : or_.addToSetsOk = false) (h2 : or_.removeFromSetsOk = false) :
    AddToSetsDP dp or_ st setNames pod
      = (st, some (DPErr.wrappedIPSet MgrErr.updateFailed))
    ∧ RemoveFromSetsDP dp or_ st setNames pod
      = (st, some (DPErr.wrappedIPSet MgrErr.updateFailed)) := by
  simp [AddToSetsDP, RemoveFromSetsDP, mgrAddToSets, mgrRemoveFromSets, h1, h2]

/-- Witness for `setMutation_errorLeavesQueue`: a local-node pod under the
deferred-apply backend. -/
theorem setMutation_errorLeavesQueue_check :
    AddToSetsDP dpWin orMemberFail st7 [{ name := "s", typ := SetType.keyValueLabelOfPod }] localPod
      = (st7, some (DPErr.wrappedIPSet MgrErr.updateFailed)) :=
  (setMutation_errorLeavesQueue dpWin orMemberFail st7
    [{ name := "s", typ := SetType.keyValueLabelOfPod }] localPod rfl rfl).1

/-- Witness for `addPolicy_errorStaging`: a selector-stage failure and an
endpoint-resolution failure at concrete inputs. -/
theorem addPolicy_errorStaging_check :
    (AddPolicy dpWin orCid emptyState polCidr).2 = some DPErr.addSelectorReference
    ∧ (AddPolicy dpWin orRes emptyState polPlain).2 = some DPErr.endpointResolveWrapped :=
  ⟨((addPolicy_errorStaging dpWin orCid emptyState polCidr).1 (by rfl)).1,
   ((addPolicy_errorStaging dpWin orRes emptyState polPlain).2.2.1 rfl rfl rfl rfl).1⟩

end NpmDataplane
